import Mathlib

/-!
Verification of the shopify-status-rss observation core.

This file gives a shallow embedding of the program's core (src/main.go and
src/cron-locker.go) and proves properties of its parser, fingerprinting,
change-detection job and execution lock.  Machine words are modelled as `Nat`
reduced modulo `2 ^ 32` where overflow matters; Go pointers become `Option`;
fallible database calls become `Except` with explicitly injected faults;
the external HTTP fetch becomes an explicit input value.
-/

/-
***************************************************************
Model of Go's crypto/sha256 (FIPS 180-4), encoding/hex ("%x")
and UTF-8 string bytes.  `sha256` maps a byte list (each entry
< 256) to the 32 digest bytes.
***************************************************************
-/

/-- Truncate to a 32-bit word. -/
def w32 (n : Nat) : Nat := n % 4294967296

/-- 32-bit addition. -/
def add32 (a b : Nat) : Nat := w32 (a + b)

/-- Rotate a 32-bit word right by `r` bits. -/
def rotr32 (r n : Nat) : Nat := w32 ((n >>> r) ||| (n <<< (32 - r)))

/-- SHA-256 message-schedule function sigma0. -/
def sigma0 (x : Nat) : Nat := (rotr32 7 x) ^^^ (rotr32 18 x) ^^^ (x >>> 3)

/-- SHA-256 message-schedule function sigma1. -/
def sigma1 (x : Nat) : Nat := (rotr32 17 x) ^^^ (rotr32 19 x) ^^^ (x >>> 10)

/-- SHA-256 round function Sigma0. -/
def bigSigma0 (x : Nat) : Nat := (rotr32 2 x) ^^^ (rotr32 13 x) ^^^ (rotr32 22 x)

/-- SHA-256 round function Sigma1. -/
def bigSigma1 (x : Nat) : Nat := (rotr32 6 x) ^^^ (rotr32 11 x) ^^^ (rotr32 25 x)

/-- SHA-256 choice function. -/
def chF (x y z : Nat) : Nat := (x &&& y) ^^^ ((x ^^^ 4294967295) &&& z)

/-- SHA-256 majority function. -/
def majF (x y z : Nat) : Nat := (x &&& y) ^^^ (x &&& z) ^^^ (y &&& z)

/-- The 64 SHA-256 round constants. -/
def sha256K : List Nat :=
  [1116352408, 1899447441, 3049323471, 3921009573, 961987163,
   1508970993, 2453635748, 2870763221, 3624381080, 310598401,
   607225278, 1426881987, 1925078388, 2162078206, 2614888103,
   3248222580, 3835390401, 4022224774, 264347078, 604807628,
   770255983, 1249150122, 1555081692, 1996064986, 2554220882,
   2821834349, 2952996808, 3210313671, 3336571891, 3584528711,
   113926993, 338241895, 666307205, 773529912, 1294757372,
   1396182291, 1695183700, 1986661051, 2177026350, 2456956037,
   2730485921, 2820302411, 3259730800, 3345764771, 3516065817,
   3600352804, 4094571909, 275423344, 430227734, 506948616,
   659060556, 883997877, 958139571, 1322822218, 1537002063,
   1747873779, 1955562222, 2024104815, 2227730452, 2361852424,
   2428436474, 2756734187, 3204031479, 3329325298]

/-- The SHA-256 initial state. -/
def sha256H0 : List Nat :=
  [1779033703, 3144134277, 1013904242, 2773480762,
   1359893119, 2600822924, 528734635, 1541459225]

/-- Group bytes into big-endian 32-bit words. -/
def bytesToWords : List Nat → List Nat
  | b0 :: b1 :: b2 :: b3 :: rest => (((b0 * 256 + b1) * 256 + b2) * 256 + b3) :: bytesToWords rest
  | _ => []

/-- Extend a 16-word block by `k` further schedule words. -/
def extendW : Nat → List Nat → List Nat
  | 0, ws => ws
  | k + 1, ws =>
    let n := ws.length
    let wt := add32 (add32 (sigma1 (ws.getD (n - 2) 0)) (ws.getD (n - 7) 0))
                    (add32 (sigma0 (ws.getD (n - 15) 0)) (ws.getD (n - 16) 0))
    extendW k (ws ++ [wt])

/-- One SHA-256 round on the eight working variables. -/
def compressStep (acc : Nat × Nat × Nat × Nat × Nat × Nat × Nat × Nat) (wk : Nat × Nat) :
    Nat × Nat × Nat × Nat × Nat × Nat × Nat × Nat :=
  match acc with
  | (a, b, c, d, e, f, g, h) =>
    let t1 := add32 h (add32 (bigSigma1 e) (add32 (chF e f g) (add32 wk.1 wk.2)))
    let t2 := add32 (bigSigma0 a) (majF a b c)
    (add32 t1 t2, a, b, c, add32 d t1, e, f, g)

/-- Compress one 64-byte block into the running 8-word state. -/
def sha256Compress (state : List Nat) (block : List Nat) : List Nat :=
  let ws := extendW 48 (bytesToWords block)
  match state with
  | [h0, h1, h2, h3, h4, h5, h6, h7] =>
    match (ws.zip sha256K).foldl compressStep (h0, h1, h2, h3, h4, h5, h6, h7) with
    | (a, b, c, d, e, f, g, h) =>
      [add32 h0 a, add32 h1 b, add32 h2 c, add32 h3 d,
       add32 h4 e, add32 h5 f, add32 h6 g, add32 h7 h]
  | _ => state

/-- Big-endian 8-byte encoding of the message bit length. -/
def lenBytes (n : Nat) : List Nat :=
  [(n >>> 56) &&& 255, (n >>> 48) &&& 255, (n >>> 40) &&& 255, (n >>> 32) &&& 255,
   (n >>> 24) &&& 255, (n >>> 16) &&& 255, (n >>> 8) &&& 255, n &&& 255]

/-- SHA-256 padding: 0x80, zeros to 56 mod 64, then the bit length. -/
def sha256pad (msg : List Nat) : List Nat :=
  let len := msg.length
  msg ++ [128] ++ List.replicate ((119 - len % 64) % 64) 0 ++ lenBytes (len * 8)

/-- Feed a (padded) byte stream through the block compressor. -/
def sha256blocks (state : List Nat) (buf : List Nat) : List Nat → List Nat
  | [] => state
  | b :: rest =>
    let buf2 := buf ++ [b]
    if buf2.length == 64 then sha256blocks (sha256Compress state buf2) [] rest
    else sha256blocks state buf2 rest

/-- Big-endian bytes of one 32-bit word. -/
def wordBytes (w : Nat) : List Nat :=
  [(w >>> 24) &&& 255, (w >>> 16) &&& 255, (w >>> 8) &&& 255, w &&& 255]

/-- SHA-256 of a byte list, as the 32 digest bytes.  Checked against the
FIPS 180-4 test vectors (empty string and "abc"). -/
def sha256 (msg : List Nat) : List Nat :=
  ((sha256blocks sha256H0 [] (sha256pad msg)).map wordBytes).flatten

/-- Lower-case hex digit, as produced by Go's "%x" format. -/
def hexDigit (n : Nat) : Char := if n < 10 then Char.ofNat (48 + n) else Char.ofNat (87 + n)

/-- Lower-case hex encoding of a byte list, as produced by Go's "%x". -/
def bytesToHex (bs : List Nat) : String :=
  String.mk ((bs.map (fun b => [hexDigit (b / 16), hexDigit (b % 16)])).flatten)

/-- UTF-8 encoding of one code point, the bytes Go writes for a character. -/
def utf8Char (c : Char) : List Nat :=
  let n := c.toNat
  if n < 128 then [n]
  else if n < 2048 then [192 ||| (n >>> 6), 128 ||| (n &&& 63)]
  else if n < 65536 then [224 ||| (n >>> 12), 128 ||| ((n >>> 6) &&& 63), 128 ||| (n &&& 63)]
  else [240 ||| (n >>> 18), 128 ||| ((n >>> 12) &&& 63), 128 ||| ((n >>> 6) &&& 63), 128 ||| (n &&& 63)]

/-- The UTF-8 bytes of a string, as a Go string's bytes. -/
def strBytes (s : String) : List Nat := (s.data.map utf8Char).flatten

/-
***************************************************************
Data model (src/main.go, "Database models" and "App models").
Only the fields the core reads are modelled; gorm bookkeeping
columns that no code path consults are dropped.
***************************************************************
-/

/-- A catalog service (Go struct `Service`); identity is `serviceName`. -/
structure Service where
  serviceName : String
deriving DecidableEq

/-- A catalog status kind (Go struct `Status`): display text `status`,
classification token `className`, and the error flag `isError`. -/
structure Status where
  status : String
  className : String
  isError : Bool
deriving DecidableEq

/-- Go struct `ParsedStatus` with pointer fields `*Service` and `*Status`;
a `none` models a nil pointer. -/
structure ParsedStatus where
  service : Option Service
  status : Option Status
deriving DecidableEq

/-- A `ParsedStatus` both of whose pointers have been dereferenced
successfully.  Functions that read through the pointers are defined on
this type; `checkStates` below performs the dereferences. -/
structure CheckedStatus where
  service : Service
  status : Status
deriving DecidableEq

/-- Go struct `LastStatus`, the singleton fingerprint row (ID is always 1
and is omitted). -/
structure LastStatus where
  updatedAt : Nat
  lastStatusHash : String
deriving DecidableEq

/-- Go struct `Feed`: one persisted feed entry (gorm bookkeeping columns
omitted). -/
structure Feed where
  title : String
  pubDate : Nat
  description : String
deriving DecidableEq

/-- Go struct `RssItem` as built by the feed-item generators. -/
structure RssItem where
  title : String
  link : String
  description : String
  pubDate : Nat
deriving DecidableEq

/-- Dereference every pointer of a parsed collection: `none` exactly when
some entry holds a nil `Service` or nil `Status` pointer, which in Go
would crash the dereferencing code. -/
def checkStates : List ParsedStatus → Option (List CheckedStatus)
  | [] => some []
  | p :: rest =>
    match p.service, p.status with
    | some sv, some st => (checkStates rest).map (fun cs => { service := sv, status := st } :: cs)
    | _, _ => none

/-
***************************************************************
Model functions (src/main.go lines 308-316, 401-468).
***************************************************************
-/

/-- Go method `ParsedStatusCollection.HasErrors`: scans entries in order
and returns true at the first error status. -/
def HasErrors : List CheckedStatus → Bool
  | [] => false
  | c :: rest => if c.status.isError then true else HasErrors rest

/-- A streaming hash writer (Go's `hash.Hash`): the state is the byte
stream written so far. -/
def hasherWrite (h : List Nat) (bs : List Nat) : List Nat := h ++ bs

/-- Go function `generateStatusHash`: write `ServiceName:ClassName` for
each entry into a fresh SHA-256 hasher, then hex-encode the digest. -/
def generateStatusHash (parsedStatuses : List CheckedStatus) : String :=
  let hasher := parsedStatuses.foldl
    (fun h c => hasherWrite h (strBytes (c.service.serviceName ++ ":" ++ c.status.className)))
    []
  bytesToHex (sha256 hasher)

/-- Go function `generateErrorFeedItem`: lists every service in an error
state and counts them.  The Go source's backquoted string contains a
literal line break and indentation, kept here as an escape sequence. -/
def generateErrorFeedItem (states : List CheckedStatus) (now : Nat) : RssItem :=
  let acc := states.foldl
    (fun (acc : String × Nat) c =>
      if c.status.isError then
        (acc.1 ++ "<li>" ++ c.service.serviceName ++ " - " ++ c.status.status ++ "</li>", acc.2 + 1)
      else acc)
    (("", 0))
  { title := toString acc.2 ++ " services reporting potential issues",
    link := "https://my.shopifystatus.com",
    description := "<h2>Shopify Reports Issues</h2>" ++
      "<p>The Shopify status page may be reporting issues. The \n\t\tfollowing services are experiencing problems:</p>" ++
      "<ul>" ++ acc.1 ++ "</ul>",
    pubDate := now }

/-- Go function `generateOperationalFeedItem`: lists every service with
its current status text under a fixed all-operational title. -/
def generateOperationalFeedItem (states : List CheckedStatus) (now : Nat) : RssItem :=
  let items := states.foldl
    (fun (acc : String) c => acc ++ "<li>" ++ c.service.serviceName ++ " - " ++ c.status.status ++ "</li>")
    ("")
  { title := "All services appear to be operational",
    link := "https://my.shopifystatus.com",
    description := "<h2>Shopify Is Operational</h2>" ++
      "<p>The Shopify status page shows that all services appear to be operational.</p>" ++
      "<ul>" ++ items ++ "</ul>",
    pubDate := now }

/-
***************************************************************
Page parser (src/main.go lines 470-515).
***************************************************************
-/

/-- The fetched document, reduced to what the two goquery selector queries
of `parsePageStatuses` see: the text of each `div.flex-col > p` element
and the class list of each `div.flex-col i` element, in document order. -/
structure Doc where
  pTexts : List String
  indicators : List (List String)
deriving DecidableEq

/-- First `Each` loop of `parsePageStatuses`: for each `p` text, the first
catalog service with exactly that name (if any) is appended with a nil
status pointer, and the match counter is incremented. -/
def pass1Each (services : List Service) : List String → Nat × List ParsedStatus → Nat × List ParsedStatus
  | [], acc => acc
  | t :: rest, (got, res) =>
    match services.find? (fun sv => sv.serviceName == t) with
    | some sv => pass1Each services rest (got + 1, res ++ [{ service := some sv, status := none }])
    | none => pass1Each services rest (got, res)

/-- Field update `result[i].Status = status` guarded by `List.set`
semantics: out-of-range writes are impossible in the source because the
loop guards `i < wantServiceCount` and the first pass made the list
exactly that long. -/
def setStatusAt (res : List ParsedStatus) (i : Nat) (st : Status) : List ParsedStatus :=
  match res[i]? with
  | some e => res.set i { e with status := some st }
  | none => res

/-- Second `Each` loop of `parsePageStatuses` with its running element
index `i`: the first catalog status whose class the `i`-th indicator
carries is assigned positionally, but only when `i < wantServiceCount`;
otherwise the indicator is ignored without affecting the counter. -/
def pass2Each (wantServiceCount : Nat) (statuses : List Status) :
    List (List String) → Nat → Nat × List ParsedStatus → Nat × List ParsedStatus
  | [], _, acc => acc
  | classes :: rest, i, (got, res) =>
    match statuses.find? (fun st => classes.contains st.className) with
    | some st =>
      if i < wantServiceCount then
        pass2Each wantServiceCount statuses rest (i + 1) (got + 1, setStatusAt res i st)
      else
        pass2Each wantServiceCount statuses rest (i + 1) (got, res)
    | none => pass2Each wantServiceCount statuses rest (i + 1) (got, res)

/-- Name read through the `Service` pointer, as the sort comparator of
`parsePageStatuses` does; parser entries always carry a service, so the
`none` default is never consulted on reachable inputs. -/
def rawName (p : ParsedStatus) : String := (p.service.map (fun sv => sv.serviceName)).getD ""

/-- The comparator `strings.Compare(a.Service.ServiceName,
b.Service.ServiceName)` viewed as a "less or equal" relation.  Go compares
the UTF-8 bytes lexicographically, which coincides with the
character-wise lexicographic order on strings used here. -/
def psLe (a b : ParsedStatus) : Prop := rawName a ≤ rawName b

instance : DecidableRel psLe := fun a b => inferInstanceAs (Decidable (rawName a ≤ rawName b))

instance : IsTotal ParsedStatus psLe := ⟨fun a b => le_total (rawName a) (rawName b)⟩

instance : IsTrans ParsedStatus psLe := ⟨fun _ _ _ hab hbc => le_trans hab hbc⟩

/-- The stable sort `slices.SortStableFunc(result, cmp by service name)`.
A stable sort is extensionally unique, so the stable insertion sort is a
faithful model of Go's stable merge sort. -/
def sortParsed (l : List ParsedStatus) : List ParsedStatus := List.insertionSort psLe l

/-- Go function `parsePageStatuses`: match service names, positionally
assign status indicators, validate both counters against the catalog
size, and return the collection sorted by service name. -/
def parsePageStatuses (doc : Doc) (services : List Service) (statuses : List Status) :
    Except String (List ParsedStatus) :=
  let wantServiceCount := services.length
  match pass1Each services doc.pTexts (0, []) with
  | (got1, result1) =>
    if got1 = wantServiceCount then
      match pass2Each wantServiceCount statuses doc.indicators 0 (0, result1) with
      | (got2, result2) =>
        if got2 = wantServiceCount then .ok (sortParsed result2)
        else .error ("the number of status icons on the page does not match the number of statuses in the database. something has changed")
    else .error ("the number of services on the page does not match the number of services in the database. something has changed")

/-
***************************************************************
Persisted store and data functions (src/main.go lines 522-604).
Database failures are injected through `DbFaults`.
***************************************************************
-/

/-- Outcome classification of a gorm call: `gorm.ErrRecordNotFound`
versus any other database error. -/
inductive DbError where
  | notFound
  | other
deriving DecidableEq

/-- The persisted store touched by the job: the singleton fingerprint row
and the append-only feed table. -/
structure StoreState where
  lastStatus : Option LastStatus
  feed : List Feed
deriving DecidableEq

/-- Which of the job's four database calls fail on this run. -/
structure DbFaults where
  queryLastStatusErr : Bool
  insertLastStatusErr : Bool
  updateLastStatusErr : Bool
  insertRssItemErr : Bool
deriving DecidableEq

/-- A run on which every database call succeeds. -/
def noFaults : DbFaults :=
  { queryLastStatusErr := false, insertLastStatusErr := false,
    updateLastStatusErr := false, insertRssItemErr := false }

/-- Go function `queryLastStatus` (`First` on the singleton table):
`ErrRecordNotFound` when no row exists. -/
def queryLastStatus (st : StoreState) (f : DbFaults) : Except DbError LastStatus :=
  if f.queryLastStatusErr then .error DbError.other
  else
    match st.lastStatus with
    | none => .error DbError.notFound
    | some ls => .ok ls

/-- Go function `insertLastStatus`: create the row with the new hash and
the current time. -/
def insertLastStatus (hash : String) (now : Nat) (st : StoreState) (f : DbFaults) :
    Except DbError StoreState :=
  if f.insertLastStatusErr then .error DbError.other
  else .ok { st with lastStatus := some { updatedAt := now, lastStatusHash := hash } }

/-- Go function `updateLastStatus`: update the stored hash where id=1
(gorm also refreshes the update timestamp); updating a missing row
matches zero rows and reports no error. -/
def updateLastStatus (hash : String) (now : Nat) (st : StoreState) (f : DbFaults) :
    Except DbError StoreState :=
  if f.updateLastStatusErr then .error DbError.other
  else .ok { st with lastStatus :=
    (st.lastStatus.map (fun ls => { ls with updatedAt := now, lastStatusHash := hash })) }

/-- Conversion from `RssItem` to the persisted `Feed` row performed by
`insertRssItem` (the link is dropped). -/
def feedOf (item : RssItem) : Feed :=
  { title := item.title, pubDate := item.pubDate, description := item.description }

/-- Go function `insertRssItem`: append one feed row. -/
def insertRssItem (item : RssItem) (st : StoreState) (f : DbFaults) : Except DbError StoreState :=
  if f.insertRssItemErr then .error DbError.other
  else .ok { st with feed := st.feed ++ [feedOf item] }

/-
***************************************************************
Fetch (src/main.go lines 377-399) and the cron job
(src/main.go lines 228-300).
***************************************************************
-/

/-- What the outside world returns for the job's single HTTP GET: a
transport error, or a response with a status code and a body that the
goquery reader either parses into a document or rejects. -/
inductive FetchInput where
  | transportErr
  | httpResp (code : Nat) (body : Except String Doc)

/-- Go function `grabStatusPage`: transport errors, non-200 status codes
and unreadable bodies all fail; a 200 response yields the document. -/
def grabStatusPage (fetch : FetchInput) : Except String Doc :=
  match fetch with
  | .transportErr => .error ("error fetching status page")
  | .httpResp code body =>
    if code ≠ 200 then .error ("status page returned an unexpected status code")
    else
      match body with
      | .error _ => .error ("error parsing status page")
      | .ok doc => .ok doc

/-- One observable store or lock operation performed by a run. -/
inductive Event where
  | fingerprintRead
  | fingerprintWrite
  | feedAppend
  | lockAcquire
  | lockRelease
deriving DecidableEq

/-- Result of one job invocation: the final persisted store (`none` when
the run would crash on a nil-pointer dereference, which never happens for
parser outputs) and the ordered store/lock operations it performed. -/
structure RunResult where
  outcome : Option StoreState
  events : List Event
deriving DecidableEq

/-- Go function `cronJob`: fetch, parse, fingerprint, compare against the
stored digest and append a feed entry when required.  Faithful to the
source's control flow, including that a failed `insertLastStatus` on the
first run is only logged, after which the feed entry is still written. -/
def cronJob (fetch : FetchInput) (services : List Service) (statuses : List Status)
    (st : StoreState) (now : Nat) (f : DbFaults) : RunResult :=
  match grabStatusPage fetch with
  | .error _ => { outcome := some st, events := [] }
  | .ok doc =>
    match parsePageStatuses doc services statuses with
    | .error _ => { outcome := some st, events := [] }
    | .ok states =>
      match checkStates states with
      | none => { outcome := none, events := [] }
      | some cs =>
        let hash := generateStatusHash cs
        match queryLastStatus st f with
        | .error DbError.other => { outcome := some st, events := [Event.fingerprintRead] }
        | .error DbError.notFound =>
          let st1 := match insertLastStatus hash now st f with
            | .error _ => st
            | .ok s => s
          let item := if HasErrors cs then generateErrorFeedItem cs now
                      else generateOperationalFeedItem cs now
          let st2 := match insertRssItem item st1 f with
            | .error _ => st1
            | .ok s => s
          { outcome := some st2,
            events := [Event.fingerprintRead, Event.fingerprintWrite, Event.feedAppend] }
        | .ok last =>
          if last.lastStatusHash = hash then
            { outcome := some st, events := [Event.fingerprintRead] }
          else
            match updateLastStatus hash now st f with
            | .error _ => { outcome := some st, events := [Event.fingerprintRead, Event.fingerprintWrite] }
            | .ok st1 =>
              let item := if HasErrors cs then generateErrorFeedItem cs now
                          else generateOperationalFeedItem cs now
              let st2 := match insertRssItem item st1 f with
                | .error _ => st1
                | .ok s => s
              { outcome := some st2,
                events := [Event.fingerprintRead, Event.fingerprintWrite, Event.feedAppend] }

/-- The eager invocation at process startup (src/main.go line 193):
`main` calls `cronJob` directly, not through the cron scheduler and its
configured locker, so the run is exactly a bare `cronJob` run. -/
def startupInvocation (fetch : FetchInput) (services : List Service) (statuses : List Status)
    (st : StoreState) (now : Nat) (f : DbFaults) : RunResult :=
  cronJob fetch services statuses st now f

/-
***************************************************************
Execution lock (src/cron-locker.go).
***************************************************************
-/

/-- Go struct `CronLock` (gorm.Model): the key plus the soft-delete
tombstone flag `deleted_at` reduced to whether it is set. -/
structure CronLock where
  key : String
  deleted : Bool
deriving DecidableEq

/-- The lock table. -/
abbrev LockState := List CronLock

/-- Go method `PostgresLocker.Lock`: a default-scoped `First` query (it
sees only rows whose tombstone is clear); any live row for the key means
the lock is held and the call fails, otherwise a live row is inserted. -/
def PostgresLocker.Lock (st : LockState) (key : String) : Except String LockState :=
  match st.find? (fun r => r.key == key && !r.deleted) with
  | some _ => .error ("cannot obtain cron lock. key already in use")
  | none => .ok (st ++ [{ key := key, deleted := false }])

/-- Go method `PostgresLocker.Unlock`: an `Unscoped` delete, removing
every row for the key, tombstoned or not. -/
def PostgresLocker.Unlock (st : LockState) (key : String) : LockState :=
  st.filter (fun r => !(r.key == key))

/-
***************************************************************
Spec-side definitions, following the specification's words,
for comparison against the code-side definitions above.
***************************************************************
-/

/-- Modelled from the spec: the decision logic of section 4.5.  No prior
fingerprint record: persist the digest and emit unconditionally; record
present with an unchanged digest: do nothing; record present with a
changed digest: persist and emit.  In both emitting cases the entry is
the error summary exactly when the observation has an error status. -/
def specDecision (st : StoreState) (now : Nat) (cs : List CheckedStatus) : StoreState :=
  let digest := generateStatusHash cs
  let entry := feedOf (if HasErrors cs then generateErrorFeedItem cs now
                       else generateOperationalFeedItem cs now)
  match st.lastStatus with
  | none =>
    { lastStatus := some { updatedAt := now, lastStatusHash := digest },
      feed := st.feed ++ [entry] }
  | some ls =>
    if ls.lastStatusHash = digest then st
    else
      { lastStatus := some { ls with updatedAt := now, lastStatusHash := digest },
        feed := st.feed ++ [entry] }

/-- Modelled from the spec (claim C3): the count of text nodes on the
page matching a known catalog service name. -/
def specServiceMatchCount (doc : Doc) (services : List Service) : Nat :=
  (doc.pTexts.filter (fun t => services.any (fun sv => sv.serviceName == t))).length

/-- Modelled from the spec (claim C3): the count of all status indicators
on the page mapped to a known status kind. -/
def specIndicatorMatchCountAll (doc : Doc) (statuses : List Status) : Nat :=
  (doc.indicators.filter (fun classes => statuses.any (fun st => classes.contains st.className))).length

/-- The count of status indicators mapped to a known status kind among
the first catalog-size positions only; this is the quantity the code
actually validates. -/
def specIndicatorMatchFirstCount (doc : Doc) (services : List Service) (statuses : List Status) : Nat :=
  ((doc.indicators.take services.length).filter
    (fun classes => statuses.any (fun st => classes.contains st.className))).length

/-- Modelled from the spec (claim C4): the fingerprint input is the
concatenation, in list order, of ServiceName, ":" and the classification
token of each entry, with no separator between entries. -/
def specHashInput (cs : List CheckedStatus) : String :=
  cs.foldl (fun s c => s ++ (c.service.serviceName ++ ":" ++ c.status.className)) ("")

/-
***************************************************************
Concrete fixtures used by witnesses and counterexamples.
***************************************************************
-/

/-- Catalog fixture: the Admin service. -/
def adminSvc : Service := { serviceName := "Admin" }

/-- Catalog fixture: the Checkout service. -/
def checkoutSvc : Service := { serviceName := "Checkout" }

/-- Catalog fixture: the operational (non-error) status kind. -/
def operationalSt : Status :=
  { status := "Operational", className := "text-operational", isError := false }

/-- Catalog fixture: the degraded-performance (error) status kind. -/
def degradedSt : Status :=
  { status := "Degraded Performance", className := "text-degraded-performance", isError := true }

/-- A one-service catalog. -/
def svcsOne : List Service := [adminSvc]

/-- A catalog of status kinds. -/
def stsTwo : List Status := [operationalSt, degradedSt]

/-- A page showing the one known service as operational. -/
def docOne : Doc := { pTexts := ["Admin"], indicators := [["text-operational"]] }

/-- A page with one matching service but two matching status indicators. -/
def docExtraInd : Doc :=
  { pTexts := ["Admin"], indicators := [["text-operational"], ["text-operational"]] }

/-- A page with nothing on it. -/
def docEmpty : Doc := { pTexts := [], indicators := [] }

/-- The parse result of `docOne` against the one-service catalog. -/
def statesOne : List ParsedStatus := [{ service := some adminSvc, status := some operationalSt }]

/-- The dereferenced form of `statesOne`. -/
def checkedOne : List CheckedStatus := [{ service := adminSvc, status := operationalSt }]

/-- A store with no fingerprint row and no feed entries. -/
def emptyStore : StoreState := { lastStatus := none, feed := [] }

/-- Faults: only the first-run fingerprint insert fails. -/
def insertFaultOnly : DbFaults := { noFaults with insertLastStatusErr := true }

/-- Faults: only the fingerprint update fails. -/
def updateFaultOnly : DbFaults := { noFaults with updateLastStatusErr := true }

/-- A parsed entry for the Admin service, operational. -/
def pAdmin : ParsedStatus := { service := some adminSvc, status := some operationalSt }

/-- A parsed entry for the Checkout service, degraded. -/
def pCheckout : ParsedStatus := { service := some checkoutSvc, status := some degradedSt }

/-- A store whose fingerprint row holds a digest that matches no
observation. -/
def storeWithHashX : StoreState :=
  { lastStatus := some { updatedAt := 0, lastStatusHash := "x" }, feed := [] }

/-- Whether an `Except` result is a success. -/
def exceptIsOk {e a : Type} : Except e a → Bool
  | .ok _ => true
  | .error _ => false

/-- The counter value produced by the second parser pass, with a running
start index. -/
def countFrom (want : Nat) (statuses : List Status) : List (List String) → Nat → Nat
  | [], _ => 0
  | classes :: rest, i =>
    (if (statuses.find? (fun st => classes.contains st.className)).isSome then
      (if i < want then 1 else 0) else 0) + countFrom want statuses rest (i + 1)

/-
***************************************************************
General helper lemmas.
***************************************************************
-/

/-- A list has an element satisfying `p` exactly when `find?` finds one. -/
theorem any_eq_find?_isSome {α : Type} (p : α → Bool) :
    ∀ l : List α, l.any p = (l.find? p).isSome := by
  intro l
  induction l with
  | nil => rfl
  | cons a rest ih =>
    by_cases h : p a = true
    · simp [List.any_cons, List.find?_cons, h]
    · simp only [Bool.not_eq_true] at h
      simp [List.any_cons, List.find?_cons, h, ih]

/-
***************************************************************
Claims C8 and C9: the execution lock.
***************************************************************
-/

/-- Closed form of `PostgresLocker.Lock`: the held check is an existence
check over live records. -/
theorem lockAcquireEq (st : LockState) (key : String) :
    PostgresLocker.Lock st key =
      (if st.any (fun r => r.key == key && !r.deleted) then
        .error ("cannot obtain cron lock. key already in use")
      else .ok (st ++ [{ key := key, deleted := false }])) := by
  rw [PostgresLocker.Lock]
  rw [any_eq_find?_isSome]
  cases h : st.find? (fun r => r.key == key && !r.deleted) with
  | none => simp [h]
  | some r => simp [h]

/-- Claim C8: for every store state, `Lock(key)` fails with the
already-held error exactly when a (live, non-tombstoned) lock record for
that key exists; when no such record exists it inserts a new live record
and succeeds.  Stated as a closed-form equation over all states. -/
theorem lock_acquire_spec (st : LockState) (key : String) :
    PostgresLocker.Lock st key =
      (if st.any (fun r => r.key == key && !r.deleted) then
        .error ("cannot obtain cron lock. key already in use")
      else .ok (st ++ [{ key := key, deleted := false }])) :=
  lockAcquireEq st key

/-- Claim C9: `Unlock(key)` removes every record for the key, tombstoned
or not, and an immediately following `Lock(key)` on the same key always
succeeds, for every store state. -/
theorem unlock_then_lock_succeeds (st : LockState) (key : String) :
    ((PostgresLocker.Unlock st key).any (fun r => r.key == key)) = false ∧
    PostgresLocker.Lock (PostgresLocker.Unlock st key) key =
      .ok (PostgresLocker.Unlock st key ++ [{ key := key, deleted := false }]) := by
  have hnone : ∀ q : CronLock → Bool,
      (∀ r : CronLock, (r.key == key) = false → q r = false) →
      (PostgresLocker.Unlock st key).any q = false := by
    intro q hq
    rw [Bool.eq_false_iff]
    intro hc
    rw [List.any_eq_true] at hc
    obtain ⟨r, hmem, hr⟩ := hc
    rw [PostgresLocker.Unlock, List.mem_filter] at hmem
    have hkey : (r.key == key) = false := by
      cases hk : r.key == key
      · rfl
      · rw [hk] at hmem
        simp at hmem
    rw [hq r hkey] at hr
    exact Bool.false_ne_true hr
  constructor
  · exact hnone (fun r => r.key == key) (fun r h => h)
  · rw [lockAcquireEq]
    rw [hnone (fun r => r.key == key && !r.deleted) (fun r h => by simp [h])]
    rfl

/-
***************************************************************
Claim C2: the eager startup invocation and the lock.
***************************************************************
-/

/-- Claim C2 (evaluation at the failing input): the eager startup
invocation of the job (a direct `cronJob` call, src/main.go line 193)
performs no lock acquisition and no lock release, yet on a plain first
run it reads the fingerprint store, writes it, and appends a feed entry
-- all while not holding the execution lock. -/
theorem startup_invocation_unlocked :
    ((startupInvocation (FetchInput.httpResp 200 (.ok docOne)) svcsOne stsTwo emptyStore 0
        noFaults).events.contains Event.lockAcquire = false) ∧
    ((startupInvocation (FetchInput.httpResp 200 (.ok docOne)) svcsOne stsTwo emptyStore 0
        noFaults).events.contains Event.lockRelease = false) ∧
    ((startupInvocation (FetchInput.httpResp 200 (.ok docOne)) svcsOne stsTwo emptyStore 0
        noFaults).events.contains Event.fingerprintRead = true) ∧
    ((startupInvocation (FetchInput.httpResp 200 (.ok docOne)) svcsOne stsTwo emptyStore 0
        noFaults).events.contains Event.fingerprintWrite = true) ∧
    ((startupInvocation (FetchInput.httpResp 200 (.ok docOne)) svcsOne stsTwo emptyStore 0
        noFaults).events.contains Event.feedAppend = true) := by
  refine ⟨rfl, rfl, rfl, rfl, rfl⟩

/-
***************************************************************
Claim C6 (counterexample) and claim C3 (counterexample).
***************************************************************
-/

/-- Counterexample to claim C6 as stated: on a first run whose
fingerprint insert fails, the cycle is not aborted -- the feed entry is
still appended (while the fingerprint record stays absent). -/
theorem store_insert_fault_cex :
    (cronJob (FetchInput.httpResp 200 (.ok docOne)) svcsOne stsTwo emptyStore 0
        insertFaultOnly).outcome
      = some { lastStatus := none, feed := [feedOf (generateOperationalFeedItem checkedOne 0)] } :=
  rfl

/-- Counterexample to claim C3 as stated: a page carrying more matched
status indicators (two) than catalog services (one) parses successfully,
because indicators at positions at or beyond the catalog size are
ignored rather than counted. -/
theorem parse_extra_indicators_cex :
    exceptIsOk (parsePageStatuses docExtraInd svcsOne stsTwo) = true ∧
    specIndicatorMatchCountAll docExtraInd stsTwo = 2 ∧
    svcsOne.length = 1 :=
  ⟨rfl, rfl, rfl⟩

/-
***************************************************************
Parser lemmas.
***************************************************************
-/

/-- The first parser pass only appends: it adds one entry per matching
text, each with a live service pointer and no status yet. -/
theorem pass1Each_spec (services : List Service) :
    ∀ (texts : List String) (got : Nat) (res : List ParsedStatus),
      ∃ news : List ParsedStatus,
        pass1Each services texts (got, res) = (got + news.length, res ++ news) ∧
        ∀ p ∈ news, p.service.isSome = true ∧ p.status = none := by
  intro texts
  induction texts with
  | nil =>
    intro got res
    exact ⟨[], by simp [pass1Each], by simp⟩
  | cons t rest ih =>
    intro got res
    cases h : services.find? (fun sv => sv.serviceName == t) with
    | some sv =>
      obtain ⟨news, heq, hprop⟩ := ih (got + 1) (res ++ [{ service := some sv, status := none }])
      refine ⟨{ service := some sv, status := none } :: news, ?_, ?_⟩
      · simp only [pass1Each, h, heq, List.append_assoc, List.singleton_append,
          List.length_cons, Prod.mk.injEq, and_true]
        omega
      · intro p hp
        rcases List.mem_cons.mp hp with rfl | hmem
        · exact ⟨rfl, rfl⟩
        · exact hprop p hmem
    | none =>
      obtain ⟨news, heq, hprop⟩ := ih got res
      exact ⟨news, by simp only [pass1Each, h, heq], hprop⟩

/-- The first pass counter counts exactly the texts matching some
catalog service. -/
theorem pass1Each_count (services : List Service) :
    ∀ (texts : List String) (got : Nat) (res : List ParsedStatus),
      (pass1Each services texts (got, res)).1 =
        got + texts.countP (fun t => (services.find? (fun sv => sv.serviceName == t)).isSome) := by
  intro texts
  induction texts with
  | nil =>
    intro got res
    simp [pass1Each]
  | cons t rest ih =>
    intro got res
    cases h : services.find? (fun sv => sv.serviceName == t) with
    | some sv =>
      simp only [pass1Each, h, ih, List.countP_cons, Option.isSome_some, if_pos]
      omega
    | none =>
      simp only [pass1Each, h, ih, List.countP_cons, Option.isSome_none]
      simp

/-- `setStatusAt` never changes the length. -/
theorem setStatusAt_length (res : List ParsedStatus) (i : Nat) (st : Status) :
    (setStatusAt res i st).length = res.length := by
  rw [setStatusAt]
  cases h : res[i]? with
  | none => rfl
  | some e => simp [List.length_set]

/-- `setStatusAt` leaves other positions untouched. -/
theorem setStatusAt_getElem?_ne (res : List ParsedStatus) (i : Nat) (st : Status)
    (j : Nat) (hne : i ≠ j) : (setStatusAt res i st)[j]? = res[j]? := by
  rw [setStatusAt]
  cases h : res[i]? with
  | none => rfl
  | some e => simp [List.getElem?_set, hne]

/-- `setStatusAt` at an in-range position stores the given status and
keeps the entry's service pointer. -/
theorem setStatusAt_getElem?_self (res : List ParsedStatus) (i : Nat) (st : Status)
    (e : ParsedStatus) (h : res[i]? = some e) :
    (setStatusAt res i st)[i]? = some { e with status := some st } := by
  have hlen : i < res.length := by
    rcases List.getElem?_eq_some_iff.mp h with ⟨hl, _⟩
    exact hl
  rw [setStatusAt, h]
  simp [List.getElem?_set, hlen]

/-- `setStatusAt` preserves every entry's service pointer. -/
theorem setStatusAt_service (res : List ParsedStatus) (i : Nat) (st : Status) (j : Nat) :
    ((setStatusAt res i st)[j]?).map (fun e => e.service) = (res[j]?).map (fun e => e.service) := by
  by_cases hne : i = j
  · subst hne
    cases h : res[i]? with
    | none => simp [setStatusAt, h]
    | some e => simp [setStatusAt_getElem?_self res i st e h, h]
  · rw [setStatusAt_getElem?_ne res i st j hne]

/-- The second parser pass never changes the length. -/
theorem pass2Each_length (want : Nat) (statuses : List Status) :
    ∀ (inds : List (List String)) (i got : Nat) (res : List ParsedStatus),
      ((pass2Each want statuses inds i (got, res)).2).length = res.length := by
  intro inds
  induction inds with
  | nil =>
    intro i got res
    simp [pass2Each]
  | cons classes rest ih =>
    intro i got res
    cases h : statuses.find? (fun st => classes.contains st.className) with
    | some stx =>
      by_cases hi : i < want
      · simp only [pass2Each, h, if_pos hi, ih, setStatusAt_length]
      · simp only [pass2Each, h, if_neg hi, ih]
    | none =>
      simp only [pass2Each, h, ih]

/-- Positions below the running index are never touched by the second
pass. -/
theorem pass2Each_getElem?_lt (want : Nat) (statuses : List Status) :
    ∀ (inds : List (List String)) (i got : Nat) (res : List ParsedStatus) (j : Nat),
      j < i → ((pass2Each want statuses inds i (got, res)).2)[j]? = res[j]? := by
  intro inds
  induction inds with
  | nil =>
    intro i got res j hj
    simp [pass2Each]
  | cons classes rest ih =>
    intro i got res j hj
    cases h : statuses.find? (fun st => classes.contains st.className) with
    | some stx =>
      by_cases hi : i < want
      · rw [pass2Each]
        simp only [h, if_pos hi]
        rw [ih (i + 1) (got + 1) (setStatusAt res i stx) j (by omega)]
        exact setStatusAt_getElem?_ne res i stx j (by omega)
      · rw [pass2Each]
        simp only [h, if_neg hi]
        exact ih (i + 1) got res j (by omega)
    | none =>
      rw [pass2Each]
      simp only [h]
      exact ih (i + 1) got res j (by omega)

/-- The second pass preserves every entry's service pointer. -/
theorem pass2Each_service_map (want : Nat) (statuses : List Status) :
    ∀ (inds : List (List String)) (i got : Nat) (res : List ParsedStatus) (j : Nat),
      (((pass2Each want statuses inds i (got, res)).2)[j]?).map (fun e => e.service)
        = (res[j]?).map (fun e => e.service) := by
  intro inds
  induction inds with
  | nil =>
    intro i got res j
    simp [pass2Each]
  | cons classes rest ih =>
    intro i got res j
    cases h : statuses.find? (fun st => classes.contains st.className) with
    | some stx =>
      by_cases hi : i < want
      · rw [pass2Each]
        simp only [h, if_pos hi]
        rw [ih (i + 1) (got + 1) (setStatusAt res i stx) j]
        exact setStatusAt_service res i stx j
      · rw [pass2Each]
        simp only [h, if_neg hi]
        exact ih (i + 1) got res j
    | none =>
      rw [pass2Each]
      simp only [h]
      exact ih (i + 1) got res j

/-- The second pass counter is `countFrom`, independently of the
accumulated collection. -/
theorem pass2Each_count (want : Nat) (statuses : List Status) :
    ∀ (inds : List (List String)) (i got : Nat) (res : List ParsedStatus),
      (pass2Each want statuses inds i (got, res)).1 = got + countFrom want statuses inds i := by
  intro inds
  induction inds with
  | nil =>
    intro i got res
    simp [pass2Each, countFrom]
  | cons classes rest ih =>
    intro i got res
    cases h : statuses.find? (fun st => classes.contains st.className) with
    | some stx =>
      by_cases hi : i < want
      · rw [pass2Each]
        simp only [h, if_pos hi]
        rw [ih (i + 1) (got + 1) (setStatusAt res i stx)]
        rw [countFrom]
        simp only [h, Option.isSome_some, if_true]
        simp [hi]
        omega
      · rw [pass2Each]
        simp only [h, if_neg hi]
        rw [ih (i + 1) got res, countFrom, h]
        simp [hi]
    | none =>
      rw [pass2Each]
      simp only [h]
      rw [ih (i + 1) got res, countFrom, h]
      simp

/-- `countFrom` counts the matched indicators among the first
`want - i` positions. -/
theorem countFrom_eq_take (want : Nat) (statuses : List Status) :
    ∀ (inds : List (List String)) (i : Nat),
      countFrom want statuses inds i =
        ((inds.take (want - i)).countP
          (fun classes => (statuses.find? (fun st => classes.contains st.className)).isSome)) := by
  intro inds
  induction inds with
  | nil =>
    intro i
    simp [countFrom]
  | cons classes rest ih =>
    intro i
    by_cases hi : i < want
    · rw [countFrom, show want - i = (want - (i + 1)) + 1 from by omega, List.take_succ_cons,
        List.countP_cons, ih (i + 1)]
      cases h : (statuses.find? (fun st => classes.contains st.className)).isSome
      · simp [h]
      · simp only [h, if_pos hi]
        omega
    · rw [countFrom, show want - i = 0 from by omega, List.take_zero]
      rw [ih (i + 1), show want - (i + 1) = 0 from by omega, List.take_zero]
      simp [hi]

/-- Coverage: when the second pass counter reaches its maximum
`want - i`, every position from `i` up to `want` has received a status. -/
theorem pass2Each_cover (want : Nat) (statuses : List Status) :
    ∀ (inds : List (List String)) (i got : Nat) (res : List ParsedStatus),
      res.length = want →
      (pass2Each want statuses inds i (got, res)).1 ≤ got + (want - i) ∧
      ((pass2Each want statuses inds i (got, res)).1 = got + (want - i) →
        ∀ j, i ≤ j → j < want →
          ∃ e, ((pass2Each want statuses inds i (got, res)).2)[j]? = some e ∧
            e.status.isSome = true) := by
  intro inds
  induction inds with
  | nil =>
    intro i got res _
    constructor
    · simp [pass2Each]
    · intro heq j hij hjw
      simp only [pass2Each] at heq
      omega
  | cons classes rest ih =>
    intro i got res hres
    cases h : statuses.find? (fun st => classes.contains st.className) with
    | some stx =>
      by_cases hi : i < want
      · have hres2 : (setStatusAt res i stx).length = want := by
          rw [setStatusAt_length]; exact hres
        obtain ⟨ihb, ihc⟩ := ih (i + 1) (got + 1) (setStatusAt res i stx) hres2
        constructor
        · rw [pass2Each]
          simp only [h, if_pos hi]
          omega
        · intro heq j hij hjw
          rw [pass2Each] at heq ⊢
          simp only [h, if_pos hi] at heq ⊢
          rcases eq_or_lt_of_le hij with heqj | hlt
          · have hin : j < res.length := by omega
            have hsome : (res[j]?).isSome = true := by
              rw [List.getElem?_eq_getElem hin]
              rfl
            obtain ⟨e, he⟩ := Option.isSome_iff_exists.mp hsome
            refine ⟨{ e with status := some stx }, ?_, ?_⟩
            · rw [pass2Each_getElem?_lt want statuses rest (i + 1) (got + 1)
                (setStatusAt res i stx) j (by omega)]
              rw [← heqj]
              exact setStatusAt_getElem?_self res i stx e (by rw [heqj]; exact he)
            · rfl
          · exact ihc (by omega) j (by omega) hjw
      · obtain ⟨ihb, ihc⟩ := ih (i + 1) got res hres
        constructor
        · rw [pass2Each]
          simp only [h, if_neg hi]
          omega
        · intro heq j hij hjw
          omega
    | none =>
      obtain ⟨ihb, ihc⟩ := ih (i + 1) got res hres
      constructor
      · rw [pass2Each]
        simp only [h]
        omega
      · intro heq j hij hjw
        rw [pass2Each] at heq ⊢
        simp only [h] at heq ⊢
        by_cases hiw : i < want
        · exact ihc (by omega) j (by omega) hjw
        · omega

/-- A collection whose entries all carry both pointers dereferences
successfully. -/
theorem checkStates_isSome_of :
    ∀ l : List ParsedStatus,
      (∀ p ∈ l, p.service.isSome = true ∧ p.status.isSome = true) →
      (checkStates l).isSome = true := by
  intro l
  induction l with
  | nil => intro _; rfl
  | cons p rest ih =>
    intro hall
    obtain ⟨hsv, hst⟩ := hall p (List.mem_cons_self p rest)
    obtain ⟨sv, hsv⟩ := Option.isSome_iff_exists.mp hsv
    obtain ⟨st, hst⟩ := Option.isSome_iff_exists.mp hst
    rw [checkStates, hsv, hst]
    obtain ⟨cs, hcs⟩ := Option.isSome_iff_exists.mp
      (ih (fun q hq => hall q (List.mem_cons_of_mem p hq)))
    rw [hcs]
    rfl

/-
***************************************************************
Claim C10: invariants of a successful parse.
***************************************************************
-/

/-- Claim C10: whenever `parsePageStatuses` returns without error, the
collection has exactly one entry per catalog service, every entry's
service and status pointers are non-nil (the positional writes all landed
inside the count-guarded range), and dereferencing the whole collection
-- as `HasErrors` and `generateStatusHash` do -- succeeds. -/
theorem parse_ok_invariants (doc : Doc) (services : List Service) (statuses : List Status)
    (res : List ParsedStatus)
    (hp : parsePageStatuses doc services statuses = .ok res) :
    res.length = services.length ∧
    (∀ p ∈ res, p.service.isSome = true ∧ p.status.isSome = true) ∧
    (checkStates res).isSome = true := by
  obtain ⟨news, h1, hnews⟩ := pass1Each_spec services doc.pTexts 0 []
  simp only [parsePageStatuses, h1, Nat.zero_add, List.nil_append] at hp
  by_cases hlen1 : news.length = services.length
  case neg =>
    rw [if_neg hlen1] at hp
    exact absurd hp (by simp)
  rw [if_pos hlen1] at hp
  rcases hpair : pass2Each services.length statuses doc.indicators 0 (0, news) with ⟨got2, result2⟩
  rw [hpair] at hp
  by_cases hg2 : got2 = services.length
  case neg =>
    rw [if_neg hg2] at hp
    exact absurd hp (by simp)
  rw [if_pos hg2] at hp
  simp only [Except.ok.injEq] at hp
  have hlen2 : result2.length = news.length := by
    have hl := pass2Each_length services.length statuses doc.indicators 0 0 news
    rw [hpair] at hl
    exact hl
  obtain ⟨_, hcov⟩ :=
    pass2Each_cover services.length statuses doc.indicators 0 0 news hlen1
  have hcov2 : ∀ j, j < services.length →
      ∃ e, result2[j]? = some e ∧ e.status.isSome = true := by
    intro j hj
    have heq1 : (pass2Each services.length statuses doc.indicators 0 (0, news)).1
        = 0 + (services.length - 0) := by
      rw [hpair]
      simpa using hg2
    obtain ⟨e, he, hes⟩ := hcov heq1 j (by omega) hj
    rw [hpair] at he
    exact ⟨e, he, hes⟩
  have hsvc : ∀ j : Nat,
      (result2[j]?).map (fun e => e.service) = (news[j]?).map (fun e => e.service) := by
    intro j
    have hs := pass2Each_service_map services.length statuses doc.indicators 0 0 news j
    rw [hpair] at hs
    exact hs
  have hall : ∀ p ∈ result2, p.service.isSome = true ∧ p.status.isSome = true := by
    intro p hpmem
    obtain ⟨j, hj⟩ := List.mem_iff_getElem?.mp hpmem
    obtain ⟨hjlen, _⟩ := List.getElem?_eq_some_iff.mp hj
    constructor
    · have hmap := hsvc j
      rw [hj, Option.map_some'] at hmap
      cases hnj : news[j]? with
      | none =>
        rw [hnj] at hmap
        exact absurd hmap (by simp)
      | some q =>
        rw [hnj, Option.map_some'] at hmap
        have hqmem : q ∈ news := by
          obtain ⟨hql, hqe⟩ := List.getElem?_eq_some_iff.mp hnj
          rw [← hqe]
          exact List.getElem_mem hql
        have hq := (hnews q hqmem).1
        have hps : p.service = q.service := by
          injection hmap
        rw [hps]
        exact hq
    · obtain ⟨e, he, hes⟩ := hcov2 j (by omega)
      rw [hj] at he
      injection he with hpe
      rw [← hpe] at hes
      exact hes
  have hperm : (sortParsed result2).Perm result2 := List.perm_insertionSort psLe result2
  refine ⟨?_, ?_, ?_⟩
  · rw [← hp]
    rw [hperm.length_eq]
    omega
  · intro p hpmem
    rw [← hp] at hpmem
    exact hall p (hperm.subset hpmem)
  · apply checkStates_isSome_of
    intro p hpmem
    rw [← hp] at hpmem
    exact hall p (hperm.subset hpmem)

/-- Witness for claim C10 at a concrete successful parse. -/
theorem parse_ok_invariants_witness :
    parsePageStatuses docOne svcsOne stsTwo = .ok statesOne ∧
    (statesOne.length = svcsOne.length ∧
      (∀ p ∈ statesOne, p.service.isSome = true ∧ p.status.isSome = true) ∧
      (checkStates statesOne).isSome = true) :=
  ⟨rfl, parse_ok_invariants docOne svcsOne stsTwo statesOne rfl⟩

/-
***************************************************************
Claim C3 (amended form): exact success condition of the parser.
***************************************************************
-/

/-- Claim C3 as amended: the parse succeeds exactly when the count of
text nodes matching known service names equals the catalog's service
count AND every one of the first catalog-count status indicators maps to
a known status kind (equivalently, the count of matched indicators among
the first catalog-count positions equals that count).  Matched
indicators beyond the first catalog-count positions are ignored, not
counted. -/
theorem parse_success_iff_counts (doc : Doc) (services : List Service) (statuses : List Status) :
    exceptIsOk (parsePageStatuses doc services statuses) =
      ((specServiceMatchCount doc services == services.length) &&
       (specIndicatorMatchFirstCount doc services statuses == services.length)) := by
  have hc1 : (pass1Each services doc.pTexts (0, [])).1 = specServiceMatchCount doc services := by
    rw [pass1Each_count, Nat.zero_add, specServiceMatchCount, ← List.countP_eq_length_filter]
    apply List.countP_congr
    intro t _
    rw [any_eq_find?_isSome]
  have hc2 : (pass2Each services.length statuses doc.indicators 0 (0, [])).1
      = specIndicatorMatchFirstCount doc services statuses := by
    rw [pass2Each_count, Nat.zero_add, countFrom_eq_take, Nat.sub_zero,
      specIndicatorMatchFirstCount, ← List.countP_eq_length_filter]
    apply List.countP_congr
    intro classes _
    rw [any_eq_find?_isSome]
  obtain ⟨news, h1, _⟩ := pass1Each_spec services doc.pTexts 0 []
  have hg1 : news.length = specServiceMatchCount doc services := by
    have hx := hc1
    rw [h1] at hx
    simpa using hx
  rcases hpair : pass2Each services.length statuses doc.indicators 0 (0, news) with ⟨got2, result2⟩
  have hg2 : got2 = specIndicatorMatchFirstCount doc services statuses := by
    have hcnt := pass2Each_count services.length statuses doc.indicators 0 0 news
    rw [hpair] at hcnt
    have hcnt1 : got2 = countFrom services.length statuses doc.indicators 0 := by
      simpa using hcnt
    have hcnt2 := pass2Each_count services.length statuses doc.indicators 0 0 ([])
    have hspec : countFrom services.length statuses doc.indicators 0
        = specIndicatorMatchFirstCount doc services statuses := by
      rw [← hc2, hcnt2]
      simp
    rw [hcnt1, hspec]
  simp only [parsePageStatuses, h1, Nat.zero_add, List.nil_append, hpair]
  by_cases hb1 : news.length = services.length
  · rw [if_pos hb1]
    by_cases hb2 : got2 = services.length
    · rw [if_pos hb2]
      rw [← hg1, ← hg2]
      simp [exceptIsOk, hb1, hb2]
    · rw [if_neg hb2]
      rw [← hg1, ← hg2]
      simp [exceptIsOk, hb1, hb2]
  · rw [if_neg hb1]
    rw [← hg1]
    simp [exceptIsOk, hb1]

/-
***************************************************************
Claim C4: the fingerprint function.
***************************************************************
-/

/-- UTF-8 encoding is a homomorphism for string concatenation. -/
theorem strBytes_append (s t : String) : strBytes (s ++ t) = strBytes s ++ strBytes t := by
  rw [strBytes, strBytes, strBytes, String.data_append, List.map_append, List.flatten_append]

/-- Streaming the per-entry writes into the hasher produces exactly the
bytes of the concatenated string. -/
theorem hasher_fold_strBytes :
    ∀ (cs : List CheckedStatus) (a : String),
      cs.foldl
        (fun h c => hasherWrite h (strBytes (c.service.serviceName ++ ":" ++ c.status.className)))
        (strBytes a)
        = strBytes (cs.foldl
            (fun s c => s ++ (c.service.serviceName ++ ":" ++ c.status.className)) a) := by
  intro cs
  induction cs with
  | nil => intro a; rfl
  | cons c rest ih =>
    intro a
    rw [List.foldl_cons, List.foldl_cons]
    have hstep : hasherWrite (strBytes a)
        (strBytes (c.service.serviceName ++ ":" ++ c.status.className))
        = strBytes (a ++ (c.service.serviceName ++ ":" ++ c.status.className)) := by
      simp [hasherWrite, strBytes_append, List.append_assoc]
    rw [hstep, ih]

/-- Claim C4: `generateStatusHash` is the hex-encoded SHA-256 digest of
the concatenation, in list order, of ServiceName, ":" and the status's
classification token for each entry, with no separator between entries.
Being a pure function of exactly these fields, equal observations always
yield equal digests. -/
theorem generateStatusHash_eq_sha256_concat (cs : List CheckedStatus) :
    generateStatusHash cs = bytesToHex (sha256 (strBytes (specHashInput cs))) := by
  simp only [generateStatusHash, specHashInput]
  rw [show ([] : List Nat) = strBytes ("") from rfl]
  rw [hasher_fold_strBytes cs ("")]

/-
***************************************************************
Claim C5: order-independence of fingerprinting after the sort.
***************************************************************
-/

/-- Two permuted lists with pairwise-distinct service names that are both
sorted by service name are equal. -/
theorem sorted_nodup_perm_eq :
    ∀ {l1 l2 : List ParsedStatus}, l1.Perm l2 →
      (l1.map rawName).Nodup → l1.Sorted psLe → l2.Sorted psLe → l1 = l2 := by
  intro l1
  induction l1 with
  | nil =>
    intro l2 hperm _ _ _
    exact (List.length_eq_zero.mp hperm.length_eq.symm).symm
  | cons a t1 ih =>
    intro l2 hperm hnodup hs1 hs2
    cases l2 with
    | nil => exact absurd hperm.length_eq (by simp)
    | cons b t2 =>
      have hab : a = b := by
        by_contra hne
        have hbmem : b ∈ a :: t1 := hperm.symm.subset (List.mem_cons_self b t2)
        have hamem : a ∈ b :: t2 := hperm.subset (List.mem_cons_self a t1)
        have hb_t1 : b ∈ t1 := by
          rcases List.mem_cons.mp hbmem with heq | hm
          · exact absurd heq.symm hne
          · exact hm
        have ha_t2 : a ∈ t2 := by
          rcases List.mem_cons.mp hamem with heq | hm
          · exact absurd heq hne
          · exact hm
        have h1 : rawName a ≤ rawName b := List.rel_of_sorted_cons hs1 b hb_t1
        have h2 : rawName b ≤ rawName a := List.rel_of_sorted_cons hs2 a ha_t2
        have hname : rawName a = rawName b := le_antisymm h1 h2
        have hnot : rawName a ∉ t1.map rawName := by
          have hx : (rawName a :: t1.map rawName).Nodup := by simpa using hnodup
          exact (List.nodup_cons.mp hx).1
        apply hnot
        rw [hname]
        exact List.mem_map_of_mem rawName hb_t1
      subst hab
      have hn2 : (t1.map rawName).Nodup := by
        have hx : (rawName a :: t1.map rawName).Nodup := by simpa using hnodup
        exact (List.nodup_cons.mp hx).2
      have ht : t1 = t2 := ih hperm.cons_inv hn2 hs1.of_cons hs2.of_cons
      rw [ht]

/-- Claim C5: for any two observations containing the same entries,
with pairwise-distinct service names, the parser's stable sort followed
by `generateStatusHash` yields identical digests regardless of input
order. -/
theorem fingerprint_order_independent (l1 l2 : List ParsedStatus)
    (hperm : l1.Perm l2) (hnames : (l1.map rawName).Nodup) :
    (checkStates (sortParsed l1)).map generateStatusHash
      = (checkStates (sortParsed l2)).map generateStatusHash := by
  have hsorteq : sortParsed l1 = sortParsed l2 := by
    apply sorted_nodup_perm_eq
    · exact (List.perm_insertionSort psLe l1).trans
        (hperm.trans (List.perm_insertionSort psLe l2).symm)
    · exact ((List.perm_insertionSort psLe l1).map rawName).nodup_iff.mpr hnames
    · exact List.sorted_insertionSort psLe l1
    · exact List.sorted_insertionSort psLe l2
  rw [hsorteq]

/-- Witness for claim C5 at two concrete two-entry observations that are
permutations of each other. -/
theorem fingerprint_order_independent_witness :
    ([pAdmin, pCheckout].Perm [pCheckout, pAdmin]) ∧
    (([pAdmin, pCheckout].map rawName).Nodup) ∧
    ((checkStates (sortParsed [pAdmin, pCheckout])).map generateStatusHash
      = (checkStates (sortParsed [pCheckout, pAdmin])).map generateStatusHash) :=
  ⟨List.Perm.swap pCheckout pAdmin [], by decide,
    fingerprint_order_independent [pAdmin, pCheckout] [pCheckout, pAdmin]
      (List.Perm.swap pCheckout pAdmin []) (by decide)⟩

/-
***************************************************************
Claim C7: failed fetch or parse mutates nothing.
***************************************************************
-/

/-- Claim C7: when the fetch fails (transport error, non-200 response,
or unreadable body) or the parse fails with a structural mismatch, the
job returns with the persisted store untouched and performs no store
operation at all. -/
theorem failed_fetch_or_parse_no_mutation (services : List Service) (statuses : List Status)
    (st : StoreState) (now : Nat) (f : DbFaults) :
    (cronJob FetchInput.transportErr services statuses st now f
      = { outcome := some st, events := [] }) ∧
    (∀ (code : Nat) (body : Except String Doc), code ≠ 200 →
      cronJob (FetchInput.httpResp code body) services statuses st now f
        = { outcome := some st, events := [] }) ∧
    (∀ e : String, cronJob (FetchInput.httpResp 200 (.error e)) services statuses st now f
      = { outcome := some st, events := [] }) ∧
    (∀ (doc : Doc) (msg : String), parsePageStatuses doc services statuses = .error msg →
      cronJob (FetchInput.httpResp 200 (.ok doc)) services statuses st now f
        = { outcome := some st, events := [] }) := by
  refine ⟨rfl, ?_, fun e => rfl, ?_⟩
  · intro code body hcode
    simp [cronJob, grabStatusPage, hcode]
  · intro doc msg hp
    simp [cronJob, grabStatusPage, hp]

/-- Witness for claim C7 at concrete failing inputs: a transport error,
an HTTP 500, an unreadable body, and a structurally mismatched page. -/
theorem failed_fetch_or_parse_no_mutation_witness :
    ((500 : Nat) ≠ 200) ∧
    (parsePageStatuses docEmpty svcsOne stsTwo
      = .error ("the number of services on the page does not match the number of services in the database. something has changed")) ∧
    (cronJob FetchInput.transportErr svcsOne stsTwo emptyStore 0 noFaults
      = { outcome := some emptyStore, events := [] }) ∧
    (cronJob (FetchInput.httpResp 500 (.ok docEmpty)) svcsOne stsTwo emptyStore 0 noFaults
      = { outcome := some emptyStore, events := [] }) ∧
    (cronJob (FetchInput.httpResp 200 (.error ("boom"))) svcsOne stsTwo emptyStore 0 noFaults
      = { outcome := some emptyStore, events := [] }) ∧
    (cronJob (FetchInput.httpResp 200 (.ok docEmpty)) svcsOne stsTwo emptyStore 0 noFaults
      = { outcome := some emptyStore, events := [] }) :=
  ⟨by decide, rfl,
    (failed_fetch_or_parse_no_mutation svcsOne stsTwo emptyStore 0 noFaults).1,
    (failed_fetch_or_parse_no_mutation svcsOne stsTwo emptyStore 0 noFaults).2.1 500
      (.ok docEmpty) (by decide),
    (failed_fetch_or_parse_no_mutation svcsOne stsTwo emptyStore 0 noFaults).2.2.1 ("boom"),
    (failed_fetch_or_parse_no_mutation svcsOne stsTwo emptyStore 0 noFaults).2.2.2 docEmpty
      ("the number of services on the page does not match the number of services in the database. something has changed")
      rfl⟩

/-
***************************************************************
Claim C1: the decision logic of the job.
***************************************************************
-/

/-- Claim C1: on a fault-free run with a successfully parsed page, the
job implements exactly the specified decision logic `specDecision`: no
prior record means persist and emit unconditionally; an unchanged digest
means no entry and an unchanged record; a changed digest means persist
and emit -- with the entry in error-summary style exactly when the new
observation contains an error status kind. -/
theorem cronJob_decision_spec (doc : Doc) (services : List Service) (statuses : List Status)
    (st : StoreState) (now : Nat) (states : List ParsedStatus) (cs : List CheckedStatus)
    (hp : parsePageStatuses doc services statuses = .ok states)
    (hc : checkStates states = some cs) :
    (cronJob (FetchInput.httpResp 200 (.ok doc)) services statuses st now noFaults).outcome
      = some (specDecision st now cs) := by
  have hfetch : grabStatusPage (FetchInput.httpResp 200 (.ok doc)) = .ok doc := rfl
  simp only [cronJob, hfetch, hp, hc]
  cases hls : st.lastStatus with
  | none =>
    have hq : queryLastStatus st noFaults = .error DbError.notFound := by
      simp [queryLastStatus, noFaults, hls]
    simp only [hq]
    simp [insertLastStatus, insertRssItem, noFaults, specDecision, hls]
  | some ls =>
    have hq : queryLastStatus st noFaults = .ok ls := by
      simp [queryLastStatus, noFaults, hls]
    simp only [hq]
    by_cases hh : ls.lastStatusHash = generateStatusHash cs
    · simp [hh, specDecision, hls]
    · simp [hh, specDecision, hls, updateLastStatus, insertRssItem, noFaults]

/-- Witness for claim C1 at a concrete first run. -/
theorem cronJob_decision_spec_witness :
    parsePageStatuses docOne svcsOne stsTwo = .ok statesOne ∧
    checkStates statesOne = some checkedOne ∧
    (cronJob (FetchInput.httpResp 200 (.ok docOne)) svcsOne stsTwo emptyStore 0 noFaults).outcome
      = some (specDecision emptyStore 0 checkedOne) :=
  ⟨rfl, rfl,
    cronJob_decision_spec docOne svcsOne stsTwo emptyStore 0 statesOne checkedOne rfl rfl⟩

/-
***************************************************************
Claim C6 (amended form): behavior under store write faults.
***************************************************************
-/

/-- Claim C6 as amended: when the update of the stored hash fails on a
changed digest, the cycle aborts and no feed entry is appended; but when
the first-run insert of the fingerprint record fails, the failure is
only logged -- the feed entry is still appended while the fingerprint
record stays absent. -/
theorem store_fault_behavior :
    (∀ (doc : Doc) (services : List Service) (statuses : List Status) (st : StoreState)
        (now : Nat) (states : List ParsedStatus) (cs : List CheckedStatus) (ls : LastStatus),
        parsePageStatuses doc services statuses = .ok states →
        checkStates states = some cs →
        st.lastStatus = some ls →
        ls.lastStatusHash ≠ generateStatusHash cs →
        cronJob (FetchInput.httpResp 200 (.ok doc)) services statuses st now updateFaultOnly
          = { outcome := some st, events := [Event.fingerprintRead, Event.fingerprintWrite] }) ∧
    (∀ (doc : Doc) (services : List Service) (statuses : List Status) (st : StoreState)
        (now : Nat) (states : List ParsedStatus) (cs : List CheckedStatus),
        parsePageStatuses doc services statuses = .ok states →
        checkStates states = some cs →
        st.lastStatus = none →
        (cronJob (FetchInput.httpResp 200 (.ok doc)) services statuses st now
            insertFaultOnly).outcome
          = some { st with feed := st.feed ++
              [feedOf (if HasErrors cs then generateErrorFeedItem cs now
                       else generateOperationalFeedItem cs now)] }) := by
  constructor
  · intro doc services statuses st now states cs ls hp hc hls hne
    have hfetch : grabStatusPage (FetchInput.httpResp 200 (.ok doc)) = .ok doc := rfl
    simp only [cronJob, hfetch, hp, hc]
    have hq : queryLastStatus st updateFaultOnly = .ok ls := by
      simp [queryLastStatus, updateFaultOnly, noFaults, hls]
    simp only [hq]
    simp [hne, updateLastStatus, updateFaultOnly, noFaults]
  · intro doc services statuses st now states cs hp hc hls
    have hfetch : grabStatusPage (FetchInput.httpResp 200 (.ok doc)) = .ok doc := rfl
    simp only [cronJob, hfetch, hp, hc]
    have hq : queryLastStatus st insertFaultOnly = .error DbError.notFound := by
      simp [queryLastStatus, insertFaultOnly, noFaults, hls]
    simp only [hq]
    simp [insertLastStatus, insertRssItem, insertFaultOnly, noFaults]

/-- Witness for claim C6 (amended) at concrete runs with an update fault
and with an insert fault. -/
theorem store_fault_behavior_witness :
    (("x" : String) ≠ generateStatusHash checkedOne) ∧
    (cronJob (FetchInput.httpResp 200 (.ok docOne)) svcsOne stsTwo storeWithHashX 0
        updateFaultOnly
      = { outcome := some storeWithHashX,
          events := [Event.fingerprintRead, Event.fingerprintWrite] }) ∧
    ((cronJob (FetchInput.httpResp 200 (.ok docOne)) svcsOne stsTwo emptyStore 0
        insertFaultOnly).outcome
      = some { emptyStore with feed := emptyStore.feed ++
          [feedOf (if HasErrors checkedOne then generateErrorFeedItem checkedOne 0
                   else generateOperationalFeedItem checkedOne 0)] }) :=
  ⟨by decide,
    store_fault_behavior.1 docOne svcsOne stsTwo storeWithHashX 0 statesOne checkedOne
      { updatedAt := 0, lastStatusHash := "x" } rfl rfl rfl (by decide),
    store_fault_behavior.2 docOne svcsOne stsTwo emptyStore 0 statesOne checkedOne rfl rfl rfl⟩
